import Mathlib

/-!
Verification of `src/fee_spec.rs` from the `gun` wallet CLI.

Strings are modelled as lists of characters (`Chars`).  Machine integers
(`u32`, `u64`) are modelled as `Nat` with explicit range checks where the
Rust parser enforces them.  The `f32` fee-rate payload is abstracted: the
embedding is parameterized over a float type `F` together with the
platform's float parsing (`f32::from_str`) and printing (`Display` of
`FeeRate::as_sat_vb`), both as parameters; facts Rust guarantees about
them (e.g. that formatting a finite float re-parses to the same value)
appear as hypotheses of the theorems that need them.  External bdk
capabilities (the transaction builder and the blockchain fee estimator)
are modelled as explicit state / functions, with the applied mutation and
every estimator call recorded in the result.
-/

namespace FeeSpecVerify

abbrev Chars := List Char

/-- Numeric value of an ASCII digit character (`c as u32 - '0' as u32`). -/
def digitVal (c : Char) : Nat := c.toNat - 48

/-- Strips `pre` from the front of `l`, returning the remainder
(model of Rust `str::strip_prefix`). -/
def stripLead : Chars → Chars → Option Chars
  | [], l => some l
  | _ :: _, [] => none
  | p :: ps, c :: cs => if p = c then stripLead ps cs else none

/-- Strips `suf` from the back of `l`, returning the remainder. -/
def stripTrail (suf l : Chars) : Option Chars :=
  (stripLead suf.reverse l.reverse).map List.reverse

/-- Digit-string core of Rust unsigned-integer parsing: a nonempty string
of ASCII digits, read most-significant first. -/
def parseUIntCore (l : Chars) : Option Nat :=
  if l.isEmpty then none
  else if l.all Char.isDigit then
    some (l.foldl (fun a c => 10 * a + digitVal c) 0)
  else none

/-- Rust integer parsing accepts one optional leading `+` sign. -/
def stripPlus (l : Chars) : Chars :=
  match l with
  | c :: rest => if c = '+' then rest else l
  | [] => []

/-- Model of Rust `uN::from_str`: optional `+`, then nonempty digits,
rejecting values outside the width (`bound = 2^N`). -/
def parseBoundedUInt (bound : Nat) (l : Chars) : Option Nat :=
  match parseUIntCore (stripPlus l) with
  | some n => if n < bound then some n else none
  | none => none

/-- `u64::from_str`. -/
def parseU64 : Chars → Option Nat := parseBoundedUInt (2 ^ 64)

/-- `u32::from_str`. -/
def parseU32 : Chars → Option Nat := parseBoundedUInt (2 ^ 32)

/-- Decimal rendering of a natural number, as Rust's `Display` for
unsigned integers produces it. -/
def natToChars (n : Nat) : Chars :=
  if n = 0 then ['0'] else (Nat.digits 10 n).reverse.map Nat.digitChar

theorem digitVal_digitChar {d : Nat} (h : d < 10) :
    digitVal (Nat.digitChar d) = d := by
  interval_cases d <;> rfl

theorem isDigit_digitChar {d : Nat} (h : d < 10) :
    (Nat.digitChar d).isDigit = true := by
  interval_cases d <;> rfl

theorem foldl_reverse_ofDigits (L : List Nat) :
    L.reverse.foldl (fun a d => 10 * a + d) 0 = Nat.ofDigits 10 L := by
  induction L with
  | nil => rfl
  | cons d ds ih =>
      rw [List.reverse_cons, List.foldl_append, ih, Nat.ofDigits_cons]
      simp [List.foldl]
      ring

theorem foldl_map_digitChar (L : List Nat) (hL : ∀ d ∈ L, d < 10) (a : Nat) :
    (L.map Nat.digitChar).foldl (fun x c => 10 * x + digitVal c) a =
      L.foldl (fun x d => 10 * x + d) a := by
  induction L generalizing a with
  | nil => rfl
  | cons d ds ih =>
      simp only [List.map_cons, List.foldl_cons]
      rw [digitVal_digitChar (hL d (List.mem_cons_self d ds))]
      exact ih (fun x hx => hL x (List.mem_cons_of_mem d hx)) _

theorem natToChars_all_digits (n : Nat) :
    (natToChars n).all Char.isDigit = true := by
  unfold natToChars
  split
  · rfl
  · rw [List.all_eq_true]
    intro c hc
    rw [List.mem_map] at hc
    obtain ⟨d, hd, rfl⟩ := hc
    rw [List.mem_reverse] at hd
    exact isDigit_digitChar (Nat.digits_lt_base (by norm_num) hd)

theorem natToChars_ne_nil (n : Nat) : (natToChars n).isEmpty = false := by
  unfold natToChars
  split
  · rfl
  · rw [List.isEmpty_eq_false_iff_exists_mem]
    have hne : Nat.digits 10 n ≠ [] := by
      rw [Nat.digits_ne_nil_iff_ne_zero]; assumption
    rcases List.exists_mem_of_ne_nil _ hne with ⟨d, hd⟩
    exact ⟨Nat.digitChar d, List.mem_map_of_mem _ (List.mem_reverse.mpr hd)⟩

theorem parseUIntCore_natToChars (n : Nat) :
    parseUIntCore (natToChars n) = some n := by
  unfold parseUIntCore
  rw [natToChars_ne_nil, natToChars_all_digits]
  simp only [Bool.false_eq_true, if_false, if_true]
  congr 1
  unfold natToChars
  split
  · subst n; rfl
  · rw [foldl_map_digitChar _ (fun d hd =>
        Nat.digits_lt_base (by norm_num) (List.mem_reverse.mp hd)),
      foldl_reverse_ofDigits, Nat.ofDigits_digits]

theorem stripPlus_natToChars (n : Nat) :
    stripPlus (natToChars n) = natToChars n := by
  have hall := natToChars_all_digits n
  cases h : natToChars n with
  | nil => rfl
  | cons c cs =>
      unfold stripPlus
      rw [h] at hall
      rw [List.all_cons, Bool.and_eq_true] at hall
      have : c ≠ '+' := by
        intro hc; subst hc; exact absurd hall.1 (by decide)
      simp [this]

theorem parseU32_natToChars {n : Nat} (h : n < 2 ^ 32) :
    parseU32 (natToChars n) = some n := by
  unfold parseU32 parseBoundedUInt
  rw [stripPlus_natToChars, parseUIntCore_natToChars]
  have : n < 4294967296 := by omega
  simp [this]

/-- Unbounded variant used to instantiate the abstract float parser in
witnesses: parses a nonempty (optionally `+`-signed) digit string. -/
def parseNatAll (l : Chars) : Option Nat := parseUIntCore (stripPlus l)

theorem parseNatAll_natToChars (n : Nat) : parseNatAll (natToChars n) = some n := by
  unfold parseNatAll
  rw [stripPlus_natToChars, parseUIntCore_natToChars]

/-- Concrete stand-in for `f32::from_str`, used to instantiate the
float-parameterized theorems on the inputs the claims name.  A decimal
literal is represented exactly as a scaled pair `(m, k)` denoting
`m / 10^k`: nonempty digits, optionally followed by `.` and nonempty
digits; anything else is rejected, as `f32::from_str` rejects it. -/
def parseDecimal (l : Chars) : Option (Nat × Nat) :=
  let ip := l.takeWhile Char.isDigit
  let rest := l.drop ip.length
  if ip.isEmpty then none
  else
    match rest with
    | [] => some (ip.foldl (fun a c => 10 * a + digitVal c) 0, 0)
    | '.' :: frac =>
        if frac.isEmpty then none
        else if frac.all Char.isDigit then
          some ((ip ++ frac).foldl (fun a c => 10 * a + digitVal c) 0,
            frac.length)
        else none
    | _ => none

/-- Fee-spec parse errors.  `Err.message` gives the rendered error text;
only `notValidSpec`'s text is fixed by the source (the `anyhow!` literal at
`fee_spec.rs:77`), whose `\x7b\x7d` placeholder is never filled with an
argument, so the message is a constant. -/
inductive Err where
  | invalidFloat
  | invalidUInt
  | invalidAmount
  | notValidSpec
deriving DecidableEq

def Err.message : Err → Chars
  | .invalidFloat => "invalid float literal".data
  | .invalidUInt => "invalid digit found in string".data
  | .invalidAmount => "invalid amount".data
  | .notValidSpec => "\x7b\x7d is not a valid fee specification".data

/-- The `FeeSpec` enum of `fee_spec.rs`.  `Absolute` carries the
`Amount` as its satoshi count (`u64`), `Rate` carries the `FeeRate`
as its sat-per-vbyte float payload (abstract type `F`), `Height` carries
the `u32` block target. -/
inductive FeeSpec (F : Type) where
  | Absolute : Nat → FeeSpec F
  | Rate : F → FeeSpec F
  | Height : Nat → FeeSpec F
deriving DecidableEq

/-- `impl Default for FeeSpec`: `FeeSpec::Height(1)`. -/
def defaultFeeSpec {F : Type} : FeeSpec F := FeeSpec.Height 1

/-- Modelled from the spec: `crate::amount_ext::FromCliStr for Amount`
(`Amount::from_cli_str`), whose source file is not under `src/`.  Per the
spec it is a secondary "amount with optional unit suffix" parser accepting
forms like `"300sat"`: a unit-suffixed smallest-unit count. -/
def from_cli_str (l : Chars) : Option Nat :=
  match stripTrail "sat".data l with
  | some body => parseU64 body
  | none => none

/-- `impl FromStr for FeeSpec` (`fee_spec.rs:54-79`), parameterized by the
platform float parser `parseF` used for the `rate:` payload. -/
def from_str {F : Type} (parseF : Chars → Option F) (s : Chars) :
    Except Err (FeeSpec F) :=
  match stripLead "rate:".data s with
  | some rest =>
      match parseF rest with
      | some r => .ok (.Rate r)
      | none => .error .invalidFloat
  | none =>
  match stripLead "abs:".data s with
  | some rest =>
      match parseU64 rest with
      | some n => .ok (.Absolute n)
      | none =>
          match from_cli_str rest with
          | some n => .ok (.Absolute n)
          | none => .error .invalidAmount
  | none =>
  match stripLead "in-blocks:".data s with
  | some rest =>
      match parseU32 rest with
      | some n => .ok (.Height n)
      | none => .error .invalidUInt
  | none => .error .notValidSpec

/-- `impl Display for FeeSpec` (`fee_spec.rs:81-89`), parameterized by the
platform float printer `printF` (rendering of `rate.as_sat_vb()`, which in
bdk returns the stored sat-per-vbyte payload unchanged) and the `Amount`
display `printA`. -/
def format {F : Type} (printF : F → Chars) (printA : Nat → Chars) :
    FeeSpec F → Chars
  | .Rate r => "rate:".data ++ printF r
  | .Absolute a => "abs:".data ++ printA a
  | .Height h => "in-blocks:".data ++ natToChars h

/-- The slice of bdk `TxBuilder` state that `apply_to_builder` touches:
the builder capability exposes `fee_absolute` and `fee_rate` setters. -/
structure Builder (F : Type) where
  absoluteFee : Option Nat
  feeRate : Option F
deriving DecidableEq

/-- Result of one `apply_to_builder` call: the returned
`anyhow::Result<()>`, the builder state after the call, and the list of
confirmation targets passed to `Blockchain::estimate_fee`. -/
structure ApplyOutcome (F E : Type) where
  result : Except E Unit
  builder : Builder F
  estimatorCalls : List Nat

/-- `FeeSpec::apply_to_builder` (`fee_spec.rs:27-51`).  `estimate_fee`
models the blockchain capability `Blockchain::estimate_fee`; the `u32`
height is passed through (`as usize` is value-preserving). -/
def apply_to_builder {F E : Type} (spec : FeeSpec F)
    (estimate_fee : Nat → Except E F) (b : Builder F) : ApplyOutcome F E :=
  match spec with
  | .Absolute fee => ⟨.ok (), { b with absoluteFee := some fee }, []⟩
  | .Rate rate => ⟨.ok (), { b with feeRate := some rate }, []⟩
  | .Height height =>
      match estimate_fee height with
      | .ok feerate => ⟨.ok (), { b with feeRate := some feerate }, [height]⟩
      | .error e => ⟨.error e, b, [height]⟩

theorem stripLead_append (p l : Chars) : stripLead p (p ++ l) = some l := by
  induction p with
  | nil => rfl
  | cons c cs ih => simp [stripLead, ih]

theorem stripLead_eq_none_iff (p l : Chars) :
    stripLead p l = none ↔ ¬ p <+: l := by
  induction p generalizing l with
  | nil => simp [stripLead]
  | cons c cs ih =>
      cases l with
      | nil => simp [stripLead]
      | cons d ds =>
          by_cases hcd : c = d
          · subst hcd
            simp [stripLead, ih, List.cons_prefix_cons]
          · simp [stripLead, hcd, List.cons_prefix_cons]

theorem stripLead_rate_abs (l : Chars) :
    stripLead "rate:".data ("abs:".data ++ l) = none := rfl

theorem stripLead_rate_inblocks (l : Chars) :
    stripLead "rate:".data ("in-blocks:".data ++ l) = none := rfl

theorem stripLead_abs_inblocks (l : Chars) :
    stripLead "abs:".data ("in-blocks:".data ++ l) = none := rfl

deriving instance DecidableEq for Except

theorem from_str_rate_eq {F : Type} (parseF : Chars → Option F) (rest : Chars) :
    from_str parseF ("rate:".data ++ rest) =
      match parseF rest with
      | some r => .ok (.Rate r)
      | none => .error .invalidFloat := rfl

theorem from_str_abs_eq {F : Type} (parseF : Chars → Option F) (rest : Chars) :
    from_str parseF ("abs:".data ++ rest) =
      match parseU64 rest with
      | some n => .ok (.Absolute n)
      | none =>
          match from_cli_str rest with
          | some n => .ok (.Absolute n)
          | none => .error .invalidAmount := rfl

theorem from_str_inblocks_eq {F : Type} (parseF : Chars → Option F)
    (rest : Chars) :
    from_str parseF ("in-blocks:".data ++ rest) =
      match parseU32 rest with
      | some n => .ok (.Height n)
      | none => .error .invalidUInt := rfl

theorem from_str_unrecognized {F : Type} (parseF : Chars → Option F)
    (s : Chars) (h1 : ¬ "rate:".data <+: s) (h2 : ¬ "abs:".data <+: s)
    (h3 : ¬ "in-blocks:".data <+: s) :
    from_str parseF s = .error .notValidSpec := by
  unfold from_str
  rw [(stripLead_eq_none_iff _ _).mpr h1, (stripLead_eq_none_iff _ _).mpr h2,
    (stripLead_eq_none_iff _ _).mpr h3]

example : from_str parseDecimal "rate:3.5".data = .ok (.Rate (35, 1)) := by
  decide
example : from_str parseDecimal "rate:abc".data = .error .invalidFloat := by
  decide
example : from_str parseDecimal "abs:300sat".data = .ok (.Absolute 300) := by
  decide
example : from_str parseDecimal "abs:300".data = .ok (.Absolute 300) := by
  decide
example : from_str parseDecimal "in-blocks:5".data = .ok (.Height 5) := by
  decide
example : from_str parseDecimal "in-blocks:-1".data = .error .invalidUInt := by
  decide
example : from_str parseDecimal "valid".data = .error .notValidSpec := by
  decide

/-- C1: for every Rate payload r and every Height h (a `u32`, so
`h < 2^32`), parsing the formatted string of `FeeSpec::Rate(r)` yields
`FeeSpec::Rate(r)` and parsing the formatted string of `FeeSpec::Height(h)`
yields `FeeSpec::Height(h)`, given the platform guarantee that formatting a
float re-parses to the same value (Rust's shortest-round-trip `Display` for
finite `f32`). -/
theorem rate_height_roundtrip {F : Type} (parseF : Chars → Option F)
    (printF : F → Chars) (printA : Nat → Chars)
    (hfloat : ∀ r, parseF (printF r) = some r) :
    (∀ r : F,
      from_str parseF (format printF printA (.Rate r)) = .ok (.Rate r)) ∧
    (∀ h : Nat, h < 2 ^ 32 →
      from_str parseF (format printF printA (.Height h)) = .ok (.Height h)) := by
  constructor
  · intro r
    rw [format, from_str_rate_eq, hfloat r]
  · intro h hh
    rw [format, from_str_inblocks_eq, parseU32_natToChars hh]

/-- C1 witness: the round-trip law instantiated with the decimal
nat printer/parser as the float pair, at `Rate 3` and `Height 5`. -/
theorem rate_height_roundtrip_witness :
    from_str parseNatAll (format natToChars natToChars (FeeSpec.Rate 3)) =
      .ok (.Rate 3) ∧
    from_str parseNatAll (format natToChars natToChars (FeeSpec.Height 5)) =
      .ok (.Height 5) :=
  ⟨(rate_height_roundtrip parseNatAll natToChars natToChars
      parseNatAll_natToChars).1 3,
   (rate_height_roundtrip parseNatAll natToChars natToChars
      parseNatAll_natToChars).2 5 (by decide)⟩

/-- C2: parsing `"abs:" + rest` first tries `rest` as a plain unsigned
integer (`u64`); if that fails it re-parses `rest` with the unit-suffix
aware amount parser `from_cli_str`; either success yields
`FeeSpec::Absolute` of the parsed amount, and the parse fails only when
both attempts fail.  In particular `"abs:300sat"` and `"abs:300"` both
yield an absolute amount of 300 sats. -/
theorem abs_parse_spec {F : Type} (parseF : Chars → Option F)
    (rest : Chars) :
    (∀ n, parseU64 rest = some n →
      from_str parseF ("abs:".data ++ rest) = .ok (.Absolute n)) ∧
    (∀ n, parseU64 rest = none → from_cli_str rest = some n →
      from_str parseF ("abs:".data ++ rest) = .ok (.Absolute n)) ∧
    (parseU64 rest = none → from_cli_str rest = none →
      from_str parseF ("abs:".data ++ rest) = .error .invalidAmount) ∧
    from_str parseF "abs:300sat".data = .ok (.Absolute 300) ∧
    from_str parseF "abs:300".data = .ok (.Absolute 300) := by
  refine ⟨?_, ?_, ?_, ?_, ?_⟩
  · intro n hn
    rw [from_str_abs_eq, hn]
  · intro n hn hcli
    rw [from_str_abs_eq, hn, hcli]
  · intro hn hcli
    rw [from_str_abs_eq, hn, hcli]
  · show from_str parseF ("abs:".data ++ "300sat".data) = .ok (.Absolute 300)
    rw [from_str_abs_eq,
      show parseU64 "300sat".data = none from by decide,
      show from_cli_str "300sat".data = some 300 from by decide]
  · show from_str parseF ("abs:".data ++ "300".data) = .ok (.Absolute 300)
    rw [from_str_abs_eq, show parseU64 "300".data = some 300 from by decide]

/-- C2 witness: the fallback branch at `"abs:300sat"` with the decimal
stand-in float parser. -/
theorem abs_parse_spec_witness :
    from_str parseDecimal ("abs:".data ++ "300sat".data) =
      .ok (.Absolute 300) :=
  (abs_parse_spec parseDecimal "300sat".data).2.1 300 (by decide) (by decide)

/-- C3: applying `FeeSpec::Absolute(a)` sets the builder's absolute fee to
exactly `a` sats, returns `Ok(())`, and never invokes the fee-estimation
service. -/
theorem apply_absolute_exact {F E : Type} (a : Nat)
    (estimate_fee : Nat → Except E F) (b : Builder F) :
    (apply_to_builder (.Absolute a) estimate_fee b).result = .ok () ∧
    (apply_to_builder (.Absolute a) estimate_fee b).builder =
      { b with absoluteFee := some a } ∧
    (apply_to_builder (.Absolute a) estimate_fee b).estimatorCalls = [] :=
  ⟨rfl, rfl, rfl⟩

/-- C4: applying `FeeSpec::Height(h)` calls the estimator with target `h`;
on success the builder's fee rate is set to the returned estimate, and an
estimator error is returned unchanged with the builder untouched. -/
theorem apply_height_estimates {F E : Type} (h : Nat)
    (estimate_fee : Nat → Except E F) (b : Builder F) :
    (∀ r, estimate_fee h = .ok r →
      apply_to_builder (.Height h) estimate_fee b =
        ⟨.ok (), { b with feeRate := some r }, [h]⟩) ∧
    (∀ e, estimate_fee h = .error e →
      apply_to_builder (.Height h) estimate_fee b = ⟨.error e, b, [h]⟩) := by
  constructor <;> intro x hx <;> simp only [apply_to_builder, hx]

/-- C4 witness: a succeeding and a failing estimator at height 7. -/
theorem apply_height_estimates_witness :
    apply_to_builder (F := Nat) (E := Nat) (.Height 7) (fun _ => .ok 4)
        ⟨none, none⟩ = ⟨.ok (), ⟨none, some 4⟩, [7]⟩ ∧
    apply_to_builder (F := Nat) (E := Nat) (.Height 7) (fun _ => .error 9)
        ⟨none, none⟩ = ⟨.error 9, ⟨none, none⟩, [7]⟩ :=
  ⟨(apply_height_estimates 7 (fun _ => .ok 4) ⟨none, none⟩).1 4 rfl,
   (apply_height_estimates 7 (fun _ => .error 9) ⟨none, none⟩).2 9 rfl⟩

/-- C5: the default-constructed `FeeSpec` is `FeeSpec::Height(1)`. -/
theorem default_is_height_one (F : Type) :
    (defaultFeeSpec : FeeSpec F) = FeeSpec.Height 1 := rfl

/-- C6: parsing `"rate:" + rest` applies the float parser to `rest`;
success yields `FeeSpec::Rate` of the parsed value (so `"rate:3.5"` gives
the rate 3.5, witnessed below) and failure (e.g. `"rate:abc"`) is a parse
error. -/
theorem rate_parse_spec {F : Type} (parseF : Chars → Option F)
    (rest : Chars) :
    (∀ r, parseF rest = some r →
      from_str parseF ("rate:".data ++ rest) = .ok (.Rate r)) ∧
    (parseF rest = none →
      from_str parseF ("rate:".data ++ rest) = .error .invalidFloat) := by
  constructor
  · intro r hr
    rw [from_str_rate_eq, hr]
  · intro hr
    rw [from_str_rate_eq, hr]

/-- C6 witness: with the decimal stand-in float parser, `"rate:3.5"`
parses to the rate 3.5 (the exact scaled decimal `35/10^1`) and
`"rate:abc"` fails with the float parse error. -/
theorem rate_parse_spec_witness :
    from_str parseDecimal ("rate:".data ++ "3.5".data) =
      .ok (.Rate (35, 1)) ∧
    from_str parseDecimal ("rate:".data ++ "abc".data) =
      .error .invalidFloat :=
  ⟨(rate_parse_spec parseDecimal "3.5".data).1 (35, 1) (by decide),
   (rate_parse_spec parseDecimal "abc".data).2 (by decide)⟩

/-- C7: parsing `"in-blocks:" + rest` parses `rest` as a `u32`; success
yields `FeeSpec::Height` of that count (so `"in-blocks:5"` gives
`Height 5`) and any non-`u32` remainder (e.g. `"in-blocks:-1"`) is a
parse error. -/
theorem inblocks_parse_spec {F : Type} (parseF : Chars → Option F)
    (rest : Chars) :
    (∀ n, parseU32 rest = some n →
      from_str parseF ("in-blocks:".data ++ rest) = .ok (.Height n)) ∧
    (parseU32 rest = none →
      from_str parseF ("in-blocks:".data ++ rest) = .error .invalidUInt) ∧
    from_str parseF "in-blocks:5".data = .ok (.Height 5) ∧
    from_str parseF "in-blocks:-1".data = .error .invalidUInt := by
  refine ⟨?_, ?_, ?_, ?_⟩
  · intro n hn
    rw [from_str_inblocks_eq, hn]
  · intro hn
    rw [from_str_inblocks_eq, hn]
  · show from_str parseF ("in-blocks:".data ++ "5".data) = .ok (.Height 5)
    rw [from_str_inblocks_eq, show parseU32 "5".data = some 5 from by decide]
  · show from_str parseF ("in-blocks:".data ++ "-1".data) =
      .error .invalidUInt
    rw [from_str_inblocks_eq, show parseU32 "-1".data = none from by decide]

/-- C7 witness: the success branch at `"in-blocks:5"` with the decimal
stand-in float parser. -/
theorem inblocks_parse_spec_witness :
    from_str parseDecimal ("in-blocks:".data ++ "5".data) =
      .ok (.Height 5) :=
  (inblocks_parse_spec parseDecimal "5".data).1 5 (by decide)

/-- C8: an input starting with none of the case-sensitive tags `"rate:"`,
`"abs:"`, `"in-blocks:"` fails to parse, with the error indicating the
string is not a valid fee specification. -/
theorem unrecognized_fails {F : Type} (parseF : Chars → Option F)
    (s : Chars) (h1 : ¬ "rate:".data <+: s) (h2 : ¬ "abs:".data <+: s)
    (h3 : ¬ "in-blocks:".data <+: s) :
    from_str parseF s = .error .notValidSpec :=
  from_str_unrecognized parseF s h1 h2 h3

/-- C8 witness: `"hello"` starts with none of the tags and fails. -/
theorem unrecognized_fails_witness :
    from_str parseDecimal "hello".data = .error .notValidSpec :=
  unrecognized_fails parseDecimal "hello".data (by decide) (by decide)
    (by decide)

/-- C9 counterexample: the input `"valid"` has no recognized tag, yet the
returned error's message does contain the offending input as a substring
(the fixed text `"\x7b\x7d is not a valid fee specification"` contains
`"valid"`), so "the message does not contain the input" is false as
stated. -/
theorem error_contains_input_cex :
    from_str parseDecimal "valid".data = .error .notValidSpec ∧
    "valid".data <:+: Err.message .notValidSpec :=
  ⟨by decide, ⟨"\x7b\x7d is not a ".data, " fee specification".data, by decide⟩⟩

/-- C9 amended: the error for an unrecognized input never interpolates the
offending input — it is one fixed error value whose message is the
constant text `"\x7b\x7d is not a valid fee specification"` (the `anyhow!`
placeholder is left unfilled), independent of the input; an input may
still coincide with a substring of that constant. -/
theorem error_message_not_interpolated {F : Type} (parseF : Chars → Option F)
    (s : Chars) (h1 : ¬ "rate:".data <+: s) (h2 : ¬ "abs:".data <+: s)
    (h3 : ¬ "in-blocks:".data <+: s) :
    from_str parseF s = .error .notValidSpec ∧
    Err.message .notValidSpec =
      "\x7b\x7d is not a valid fee specification".data :=
  ⟨from_str_unrecognized parseF s h1 h2 h3, rfl⟩

/-- C9 witness: the amended statement at the input `"xyz"`. -/
theorem error_message_not_interpolated_witness :
    from_str parseDecimal "xyz".data = .error .notValidSpec ∧
    Err.message .notValidSpec =
      "\x7b\x7d is not a valid fee specification".data :=
  error_message_not_interpolated parseDecimal "xyz".data (by decide)
    (by decide) (by decide)

/-- C10: `apply_to_builder` is atomic — whenever it returns an error the
builder is unchanged, and that can only happen for a `Height` spec whose
fee estimation returned that same error. -/
theorem apply_error_atomic {F E : Type} (spec : FeeSpec F)
    (estimate_fee : Nat → Except E F) (b : Builder F) (e : E)
    (herr : (apply_to_builder spec estimate_fee b).result = .error e) :
    (apply_to_builder spec estimate_fee b).builder = b ∧
    ∃ ht, spec = .Height ht ∧ estimate_fee ht = .error e := by
  cases spec with
  | Absolute a => exact absurd herr (by simp [apply_to_builder])
  | Rate r => exact absurd herr (by simp [apply_to_builder])
  | Height ht =>
      cases hest : estimate_fee ht with
      | ok r =>
          rw [apply_to_builder] at herr
          rw [hest] at herr
          exact absurd herr (by simp)
      | error e2 =>
          rw [apply_to_builder] at herr
          rw [hest] at herr
          obtain rfl : e2 = e := by simpa using herr
          exact ⟨by simp [apply_to_builder, hest], ht, rfl, hest⟩

/-- C10 witness: a failing estimator at height 2 leaves the builder
exactly as it was. -/
theorem apply_error_atomic_witness :
    (apply_to_builder (F := Nat) (E := Nat) (.Height 2) (fun _ => .error 5)
        ⟨some 1, none⟩).builder = ⟨some 1, none⟩ ∧
    ∃ ht, (FeeSpec.Height 2 : FeeSpec Nat) = .Height ht ∧
      (fun _ => (Except.error 5 : Except Nat Nat)) ht = .error 5 :=
  apply_error_atomic (.Height 2) (fun _ => .error 5) ⟨some 1, none⟩ 5 rfl

end FeeSpecVerify
